import Mathlib

/-!
Shallow embedding of the resilience-and-dispatch core of the Data-Lab
backend (`backend/apps/connectors/resilience.py`, `backend/apps/mcp/ratelimit.py`,
`backend/apps/connectors/metrics.py`, `backend/apps/connectors/service.py`,
`backend/apps/mcp/service.py`), together with theorems settling the
specification claims about it.

Wall-clock instants (Python `time.time()` values) are modelled as rationals
passed explicitly to each operation; Python `float` arithmetic on the small
quantities involved here is exact enough that the rational model coincides
with the source behaviour on every scenario appearing below.
-/

namespace DataLab

/-! ## Circuit breaker (`backend/apps/connectors/resilience.py`) -/

/-- `CircuitState` from `resilience.py`. -/
inductive CircuitState where
  | CLOSED
  | OPEN
  | HALF_OPEN
deriving DecidableEq, Repr

/-- `CircuitBreakerConfig` from `resilience.py` (defaults 5 / 2 / 30 s). -/
structure CircuitBreakerConfig where
  failure_threshold : Nat
  success_threshold : Nat
  timeout_seconds : ℚ
deriving DecidableEq, Repr

/-- The default configuration used by the global registry. -/
def defaultConfig : CircuitBreakerConfig := ⟨5, 2, 30⟩

/-- `CircuitBreakerState` from `resilience.py`: mutable breaker record for one
(org, datasource) key.  `last_failure_time` is `none` until a failure is
recorded. -/
structure CircuitBreakerState where
  config : CircuitBreakerConfig
  state : CircuitState
  failure_count : Nat
  success_count : Nat
  last_failure_time : Option ℚ
deriving DecidableEq, Repr

/-- A freshly created breaker (`CircuitBreakerState.__init__`). -/
def initBreaker (cfg : CircuitBreakerConfig) : CircuitBreakerState :=
  ⟨cfg, .CLOSED, 0, 0, none⟩

/-- `CircuitBreakerState.should_allow_request`, with the current wall-clock
instant `now` passed explicitly.  Returns the decision together with the
(possibly updated) breaker state.  The guard `t ≠ 0` mirrors the Python
truthiness test `if self.last_failure_time` (a `0.0` timestamp is falsy). -/
def shouldAllowRequest (b : CircuitBreakerState) (now : ℚ) :
    Bool × CircuitBreakerState :=
  match b.state with
  | .CLOSED => (true, b)
  | .OPEN =>
    match b.last_failure_time with
    | some t =>
      if t ≠ 0 ∧ now - t ≥ b.config.timeout_seconds then
        (true, { b with state := .HALF_OPEN, success_count := 0 })
      else
        (false, b)
    | none => (false, b)
  | .HALF_OPEN => (true, b)

/-- `CircuitBreakerState.record_success`. -/
def recordSuccess (b : CircuitBreakerState) : CircuitBreakerState :=
  match b.state with
  | .HALF_OPEN =>
    let sc := b.success_count + 1
    if sc ≥ b.config.success_threshold then
      { b with state := .CLOSED, success_count := sc, failure_count := 0 }
    else
      { b with success_count := sc }
  | .CLOSED => { b with failure_count := 0 }
  | .OPEN => b

/-- `CircuitBreakerState.record_failure`, with the wall-clock instant `now`
standing for `time.time()`. -/
def recordFailure (b : CircuitBreakerState) (now : ℚ) : CircuitBreakerState :=
  let b1 := { b with last_failure_time := some now }
  match b1.state with
  | .HALF_OPEN => { b1 with state := .OPEN, failure_count := b1.config.failure_threshold }
  | .CLOSED =>
    let fc := b1.failure_count + 1
    if fc ≥ b1.config.failure_threshold then
      { b1 with state := .OPEN, failure_count := fc }
    else
      { b1 with failure_count := fc }
  | .OPEN => b1

/-- A sequence of consecutive `record_failure` calls at the given instants. -/
def recordFailures (b : CircuitBreakerState) (ts : List ℚ) : CircuitBreakerState :=
  ts.foldl (fun s t => recordFailure s t) b

/-- Outcome of `with_circuit_breaker`: the `CircuitBreakerOpen` exception,
the wrapped function's value, or the wrapped function's exception re-raised. -/
inductive CBResult (ε α : Type) where
  | breakerOpen : CBResult ε α
  | ok : α → CBResult ε α
  | err : ε → CBResult ε α
deriving DecidableEq, Repr

/-- `with_circuit_breaker` from `resilience.py`.  The wrapped coroutine is
modelled by its outcome `func : Except ε α`; the returned `Bool` records
whether the wrapped function was invoked. -/
def withCircuitBreaker {ε α : Type} (b : CircuitBreakerState) (now : ℚ)
    (func : Except ε α) : CBResult ε α × CircuitBreakerState × Bool :=
  let p := shouldAllowRequest b now
  if p.1 then
    match func with
    | .ok v => (.ok v, recordSuccess p.2, true)
    | .error e => (.err e, recordFailure p.2 now, true)
  else
    (.breakerOpen, p.2, false)

/-! ## Retry with exponential backoff (`retry_with_backoff`) -/

/-- Outcome of one invocation of the wrapped async function: a value, a
transient exception (`asyncio.TimeoutError`, `OSError`, `ConnectionError`),
or any other (non-transient) exception, each carrying its message. -/
inductive CallOutcome (α : Type) where
  | ok : α → CallOutcome α
  | transient : String → CallOutcome α
  | nonTransient : String → CallOutcome α
deriving DecidableEq, Repr

/-- The exception finally propagated by `retry_with_backoff`. -/
inductive RetryError where
  | transient : String → RetryError
  | nonTransient : String → RetryError
deriving DecidableEq, Repr

/-- The `for attempt in range(retries + 1)` loop of `retry_with_backoff`.
The wrapped function is modelled by the outcome of its `i`-th invocation
`f i`; `remaining` counts the attempts still available after this one
(`retries - attempt`), so the loop body sleeps and retries exactly when
`attempt < retries`, i.e. when `remaining > 0`.  Returns the final result,
the number of times the function was invoked, and the total milliseconds
slept. -/
def retryGo {α : Type} (f : Nat → CallOutcome α) (base_ms max_ms : Nat) :
    (attempt : Nat) → (remaining : Nat) → Except RetryError α × Nat × Nat
  | attempt, 0 =>
    match f attempt with
    | .ok v => (.ok v, 1, 0)
    | .nonTransient m => (.error (.nonTransient m), 1, 0)
    | .transient m => (.error (.transient m), 1, 0)
  | attempt, remaining + 1 =>
    match f attempt with
    | .ok v => (.ok v, 1, 0)
    | .nonTransient m => (.error (.nonTransient m), 1, 0)
    | .transient _ =>
      let d := min (base_ms * 2 ^ attempt) max_ms
      let r := retryGo f base_ms max_ms (attempt + 1) remaining
      (r.1, r.2.1 + 1, r.2.2 + d)

/-- `retry_with_backoff` from `resilience.py` (invocation counting and sleep
accounting made explicit). -/
def retryWithBackoff {α : Type} (f : Nat → CallOutcome α)
    (retries base_ms max_ms : Nat) : Except RetryError α × Nat × Nat :=
  retryGo f base_ms max_ms 0 retries

/-! ## Token bucket (`backend/apps/mcp/ratelimit.py`) -/

/-- `TokenBucket` from `ratelimit.py`. -/
structure TokenBucket where
  capacity : Nat
  tokens : ℚ
  last_refill : ℚ
  refill_rate : ℚ
deriving DecidableEq, Repr

/-- `TokenBucket.consume`, with the wall-clock instant `now` passed
explicitly.  Lazily refills (capped at capacity), then test-and-decrements. -/
def TokenBucket.consume (b : TokenBucket) (now : ℚ) (req : Nat) :
    Bool × TokenBucket :=
  let time_passed := now - b.last_refill
  let toks := min (b.capacity : ℚ) (b.tokens + time_passed * b.refill_rate)
  if toks ≥ (req : ℚ) then
    (true, { b with tokens := toks - (req : ℚ), last_refill := now })
  else
    (false, { b with tokens := toks, last_refill := now })

/-- Bucket creation inside `RateLimiter.check_rate_limit`: capacity and
initial tokens equal the per-minute limit, refill rate is `limit / 60`. -/
def newBucket (limit_per_min : Nat) (now : ℚ) : TokenBucket :=
  ⟨limit_per_min, (limit_per_min : ℚ), now, (limit_per_min : ℚ) / 60⟩

/-- Run a sequence of single-token `consume` calls at the given instants,
returning for each call the admission decision and the token count left. -/
def consumeTrace (b : TokenBucket) : List ℚ → List (Bool × ℚ)
  | [] => []
  | t :: ts =>
    let p := b.consume t 1
    (p.1, p.2.tokens) :: consumeTrace p.2 ts

/-! ## JSON values and field masking (`backend/apps/mcp/service.py`) -/

/-- JSON-like values flowing through tool execution and masking. -/
inductive JValue where
  | str : String → JValue
  | num : Int → JValue
  | bool : Bool → JValue
  | null : JValue
  | arr : List JValue → JValue
  | obj : List (String × JValue) → JValue

/-- First-match association-list lookup (Python `dict` access by key). -/
def alistLookup {β : Type} : List (String × β) → String → Option β
  | [], _ => none
  | (a, v) :: rest, k => if a = k then some v else alistLookup rest k

/-- A Python dict mapping mask-rule keys (such as `"remove"`) to lists of
field names, e.g. `{"remove": ["phone", "national_id"]}`. -/
abbrev MaskDict : Type := List (String × List String)

/-- `field_masks.get("remove", [])`: lookup with default empty list. -/
def dictGet (d : MaskDict) (k : String) : List String :=
  (alistLookup d k).getD []

/-- Python `d[k] = v` on a dict: replace the value of an existing key in
place, or append a new key at the end. -/
def dictSet (d : MaskDict) (k : String) (v : List String) : MaskDict :=
  match alistLookup d k with
  | some _ => d.map (fun kv => if kv.1 = k then (k, v) else kv)
  | none => d ++ [(k, v)]

/-- Python `d.update(other)`: key-wise overwrite of `d` by `other`. -/
def dictUpdate (d other : MaskDict) : MaskDict :=
  other.foldl (fun acc kv => dictSet acc kv.1 kv.2) d

mutual

/-- `MCPService._apply_field_masks`: strips the fields named under the
`"remove"` key of `field_masks` from the top level of a dict, recurses into
list elements, and returns every other value unchanged. -/
def applyFieldMasks (data : JValue) (field_masks : MaskDict) : JValue :=
  let remove_fields := dictGet field_masks "remove"
  if remove_fields = [] then data
  else
    match data with
    | .obj kvs => .obj (kvs.filter (fun kv => !(remove_fields.contains kv.1)))
    | .arr items => .arr (applyFieldMasksList items field_masks)
    | d => d

/-- The list comprehension in `_apply_field_masks`: mask each element. -/
def applyFieldMasksList (items : List JValue) (field_masks : MaskDict) :
    List JValue :=
  match items with
  | [] => []
  | x :: xs => applyFieldMasks x field_masks :: applyFieldMasksList xs field_masks

end

/-- Key lookup inside a JSON object (`none` on non-objects). -/
def objLookup (v : JValue) (k : String) : Option JValue :=
  match v with
  | .obj kvs => alistLookup kvs k
  | _ => none

/-! ## Policy evaluation (`MCPService._check_policies`) -/

/-- `PolicyEffect` from `backend/apps/core/models/policy.py`. -/
inductive PolicyEffect where
  | ALLOW
  | DENY
deriving DecidableEq, Repr

/-- The fields of a `Policy` row read by `_check_policies`, for one enabled
policy targeting the invoked tool (the database query already filters on
`org_id`, `resource_type == TOOL`, `resource_id == tool_id`, and `enabled`).
`conditions` maps condition keys (such as `"roles_any_of"`) to role lists;
`field_masks` is the optional masking dict. -/
structure Policy where
  name : String
  effect : PolicyEffect
  conditions : List (String × List String)
  field_masks : Option MaskDict
deriving DecidableEq, Repr

/-- `MCPService._policy_conditions_match`: the caller's membership is
modelled by its optional role string. -/
def policyConditionsMatch (policy : Policy) (membership : Option String) : Bool :=
  match alistLookup policy.conditions "roles_any_of" with
  | some required_roles =>
    match membership with
    | some role => required_roles.contains role
    | none => false
  | none => true

/-- The result dict of `_check_policies`: `allowed`, `reason`, and the
accumulated `field_masks` (absent key modelled as `none`). -/
structure PolicyResult where
  allowed : Bool
  reason : String
  field_masks : Option MaskDict
deriving DecidableEq, Repr

/-- The mask-collection step for one matching ALLOW policy (`_check_policies`
lines 577–581): a falsy (`None` or empty) mask dict contributes nothing,
otherwise the accumulator (initialised to `{}` when still `None`) is
`update`d with the policy's dict. -/
def collectMaskStep (fm : Option MaskDict) (policy : Policy) : Option MaskDict :=
  match policy.field_masks with
  | some m => if m = [] then fm else some (dictUpdate (fm.getD []) m)
  | none => fm

/-- The `for policy in policies` loop of `_check_policies`, carrying the
accumulated mask dict. -/
def checkPoliciesGo (membership : Option String) :
    List Policy → Option MaskDict → PolicyResult
  | [], fm => ⟨true, "Allowed by policy", fm⟩
  | policy :: rest, fm =>
    if policyConditionsMatch policy membership then
      if policy.effect = .DENY then
        ⟨false, "Denied by policy " ++ policy.name, none⟩
      else if policy.effect = .ALLOW then
        checkPoliciesGo membership rest (collectMaskStep fm policy)
      else
        checkPoliciesGo membership rest fm
    else
      checkPoliciesGo membership rest fm

/-- `MCPService._check_policies` on the list of enabled policies targeting
the tool. -/
def checkPolicies (policies : List Policy) (membership : Option String) :
    PolicyResult :=
  if policies = [] then ⟨true, "No policies defined", none⟩
  else checkPoliciesGo membership policies none

/-- The fields of a `Tool` row read by `invoke_tool` (enabled flag and
configured per-minute rate limit). -/
structure ToolModel where
  enabled : Bool
  rate_limit_per_min : Option Nat
deriving DecidableEq, Repr

/-- `InvokeOut` from `backend/apps/core/schemas/mcp.py`. -/
structure InvokeOut where
  ok : Bool
  data : Option JValue
  masked : Bool
  trace_id : String
  error : Option String

/-- The `HTTPException`s raised by steps 1–3 of `invoke_tool` (pipeline-level
terminal outcomes, re-raised past the final `except`). -/
inductive InvokeError where
  | notFound
  | forbidden : String → InvokeError
  | rateLimited
deriving DecidableEq, Repr

/-- `tool.rate_limit_per_min or 60`: Python truthiness makes both `None` and
`0` fall back to the default 60/min. -/
def toolRateLimit (tool : ToolModel) : Nat :=
  match tool.rate_limit_per_min with
  | some n => if n = 0 then 60 else n
  | none => 60

/-- Bucket resolution inside `RateLimiter.check_rate_limit`: reuse the
existing bucket for the (org, tool) key or create a fresh one. -/
def resolveBucket (bucket? : Option TokenBucket) (limit_per_min : Nat)
    (now : ℚ) : TokenBucket :=
  match bucket? with
  | some b => b
  | none => newBucket limit_per_min now

/-- `MCPService.invoke_tool`, with its external collaborators passed as
explicit inputs: `trace_id` is the UUID generated at the start, `tool?` the
storage lookup result, `policies` the enabled policies targeting the tool,
`membership` the caller's optional role, `bucket?` the rate-limiter bucket
for the (org, tool) key, `now` the wall clock, and `exec` the outcome of
`_execute_tool` (whose exceptions are modelled by their message).  Returns
the pipeline outcome (an `HTTPException` or a normal `InvokeOut` envelope)
together with the rate-limiter bucket afterwards. -/
def invokeTool (trace_id : String) (tool? : Option ToolModel)
    (policies : List Policy) (membership : Option String)
    (bucket? : Option TokenBucket) (now : ℚ) (exec : Except String JValue) :
    Except InvokeError InvokeOut × Option TokenBucket :=
  match tool? with
  | none => (.error .notFound, bucket?)
  | some tool =>
    if !tool.enabled then
      (.error (.forbidden "Tool is disabled"), bucket?)
    else
      let policy_result := checkPolicies policies membership
      if !policy_result.allowed then
        (.error (.forbidden ("Access denied by policy: " ++ policy_result.reason)),
          bucket?)
      else
        let bucket := resolveBucket bucket? (toolRateLimit tool) now
        let granted := bucket.consume now 1
        if !granted.1 then
          (.error .rateLimited, some granted.2)
        else
          match exec with
          | .error e =>
            (.ok ⟨false, none, false, trace_id, some e⟩, some granted.2)
          | .ok result_data =>
            match policy_result.field_masks with
            | some m =>
              if m = [] then
                (.ok ⟨true, some result_data, false, trace_id, none⟩, some granted.2)
              else
                (.ok ⟨true, some (applyFieldMasks result_data m), true, trace_id, none⟩,
                  some granted.2)
            | none =>
              (.ok ⟨true, some result_data, false, trace_id, none⟩, some granted.2)

/-! ## Metrics and health summary (`metrics.py`, `connectors/service.py`) -/

/-- `DataSourceMetrics` from `backend/apps/connectors/metrics.py`. -/
structure DataSourceMetrics where
  calls_total : Nat
  errors_total : Nat
  avg_latency_ms : ℚ
  p95_ms : ℚ
  recent_latencies : List ℚ
  last_ok_ts : Option ℚ
  last_err_ts : Option ℚ
  state : String
deriving DecidableEq, Repr

/-- A fresh metrics record (dataclass defaults). -/
def initMetrics : DataSourceMetrics :=
  ⟨0, 0, 0, 0, [], none, none, "CLOSED"⟩

/-- `MetricsRegistry.get_metrics` for one (org, datasource) key: the backing
map is a `defaultdict(DataSourceMetrics)`, so a read of an absent key — as
performed by the metrics endpoint via
`DataSourceService.get_datasource_metrics`, even for a never-called
datasource — creates and stores a fresh default record.  Returns the record
read together with the stored entry afterwards. -/
def getMetrics (stored : Option DataSourceMetrics) :
    DataSourceMetrics × Option DataSourceMetrics :=
  match stored with
  | some m => (m, some m)
  | none => (initMetrics, some initMetrics)

/-- `DataSourceMetrics.record_call`, with `now` standing for `time.time()`.
EMA with α = 0.2, last-20 latency window, and the sorted-window
`int(len * 0.95)` approximate P95. -/
def recordCall (m : DataSourceMetrics) (now latency_ms : ℚ) (success : Bool) :
    DataSourceMetrics :=
  let m := { m with calls_total := m.calls_total + 1 }
  let m :=
    if success then { m with last_ok_ts := some now }
    else { m with errors_total := m.errors_total + 1, last_err_ts := some now }
  let m :=
    if m.avg_latency_ms = 0 then { m with avg_latency_ms := latency_ms }
    else { m with avg_latency_ms := (1 / 5) * latency_ms + (4 / 5) * m.avg_latency_ms }
  let window := m.recent_latencies ++ [latency_ms]
  let window := if window.length > 20 then window.drop 1 else window
  let sorted := window.insertionSort (· ≤ ·)
  let idx := (sorted.length * 95) / 100
  { m with
    recent_latencies := window,
    p95_ms := sorted.getD (min idx (sorted.length - 1)) 0 }

/-- The per-datasource health formula of
`DataSourceService.get_org_health_summary` (lines 588–591): not OPEN, some
success recorded, and that success strictly newer than any failure. -/
def metricsHealthy (m : DataSourceMetrics) : Bool :=
  decide (m.state ≠ "OPEN") &&
    (match m.last_ok_ts with
     | none => false
     | some ok_ts =>
       match m.last_err_ts with
       | none => true
       | some err_ts => decide (ok_ts > err_ts))

/-- The `ok` field of one health-summary entry: `none` (JSON `null`,
"unknown") when the datasource has no metrics record, the health formula
otherwise. -/
def healthOk (metrics? : Option DataSourceMetrics) : Option Bool :=
  match metrics? with
  | some m => some (metricsHealthy m)
  | none => none

/-- Modelled from the spec (§4.4): "a resource is healthy iff its breaker
state is not OPEN and its last success is strictly newer than its last
failure (or no failure has ever been recorded)". -/
def healthyClaim (m : DataSourceMetrics) : Prop :=
  m.state ≠ "OPEN" ∧
    (m.last_err_ts = none ∨
      ∃ ok_ts err_ts, m.last_ok_ts = some ok_ts ∧ m.last_err_ts = some err_ts ∧
        ok_ts > err_ts)

/-! ## Helper lemmas -/

/-- `record_failure` never touches the breaker's configuration. -/
theorem recordFailure_config (b : CircuitBreakerState) (t : ℚ) :
    (recordFailure b t).config = b.config := by
  unfold recordFailure
  rcases hst : b.state <;> simp [hst]
  split <;> rfl

/-- A failure recorded while CLOSED and strictly below the threshold just
increments the counter and stamps the failure time. -/
theorem recordFailure_closed_lt (b : CircuitBreakerState) (t : ℚ)
    (hs : b.state = .CLOSED)
    (h : b.failure_count + 1 < b.config.failure_threshold) :
    recordFailure b t =
      { b with failure_count := b.failure_count + 1, last_failure_time := some t } := by
  unfold recordFailure
  simp [hs]
  omega

/-- A failure recorded while CLOSED that reaches the threshold opens the
circuit. -/
theorem recordFailure_closed_ge (b : CircuitBreakerState) (t : ℚ)
    (hs : b.state = .CLOSED)
    (h : b.config.failure_threshold ≤ b.failure_count + 1) :
    recordFailure b t =
      { b with state := .OPEN, failure_count := b.failure_count + 1,
               last_failure_time := some t } := by
  unfold recordFailure
  simp [hs]
  omega

/-- Fewer consecutive failures than the threshold leave a CLOSED breaker
CLOSED, with the counter advanced by the number of failures. -/
theorem recordFailures_closed_of_lt :
    ∀ (ts : List ℚ) (b : CircuitBreakerState), b.state = .CLOSED →
      b.failure_count + ts.length < b.config.failure_threshold →
      (recordFailures b ts).state = .CLOSED ∧
      (recordFailures b ts).failure_count = b.failure_count + ts.length ∧
      (recordFailures b ts).config = b.config := by
  intro ts
  induction ts with
  | nil =>
    intro b h1 _
    exact ⟨h1, by simp [recordFailures], rfl⟩
  | cons t ts ih =>
    intro b h1 h2
    have hlt : b.failure_count + 1 < b.config.failure_threshold := by
      simp only [List.length_cons] at h2
      omega
    have hstep : recordFailure b t =
        { b with failure_count := b.failure_count + 1, last_failure_time := some t } :=
      recordFailure_closed_lt b t h1 hlt
    have hrec : recordFailures b (t :: ts) = recordFailures (recordFailure b t) ts := rfl
    rw [hrec, hstep]
    set b1 : CircuitBreakerState :=
      { b with failure_count := b.failure_count + 1, last_failure_time := some t }
    have hb1s : b1.state = CircuitState.CLOSED := h1
    have hb1f : b1.failure_count = b.failure_count + 1 := rfl
    have hb1c : b1.config = b.config := rfl
    have := ih b1 hb1s
      (by rw [hb1f, hb1c]; simp only [List.length_cons] at h2; omega)
    simp only [List.length_cons]
    refine ⟨this.1, by rw [this.2.1, hb1f]; omega, by rw [this.2.2, hb1c]⟩

/-- Exactly enough consecutive failures to meet the threshold drive a CLOSED
breaker to OPEN with the counter at the threshold. -/
theorem recordFailures_opens :
    ∀ (ts : List ℚ) (b : CircuitBreakerState), b.state = .CLOSED →
      b.failure_count + ts.length = b.config.failure_threshold →
      ts ≠ [] →
      (recordFailures b ts).state = .OPEN ∧
      (recordFailures b ts).failure_count = b.config.failure_threshold ∧
      (recordFailures b ts).config = b.config := by
  intro ts
  induction ts with
  | nil => intro b _ _ hne; exact absurd rfl hne
  | cons t ts ih =>
    intro b h1 h2 _
    simp only [List.length_cons] at h2
    by_cases hts : ts = []
    · subst hts
      simp only [List.length_nil] at h2
      have hstep := recordFailure_closed_ge b t h1 (by omega)
      have hrec : recordFailures b [t] = recordFailure b t := rfl
      rw [hrec, hstep]
      exact ⟨rfl, by simpa using by omega, rfl⟩
    · have hlt : b.failure_count + 1 < b.config.failure_threshold := by
        have : 0 < ts.length := List.length_pos.mpr hts
        omega
      have hstep := recordFailure_closed_lt b t h1 hlt
      have hrec : recordFailures b (t :: ts) = recordFailures (recordFailure b t) ts := rfl
      rw [hrec, hstep]
      set b1 : CircuitBreakerState :=
        { b with failure_count := b.failure_count + 1, last_failure_time := some t }
      have hb1s : b1.state = CircuitState.CLOSED := h1
      have hb1f : b1.failure_count = b.failure_count + 1 := rfl
      have hb1c : b1.config = b.config := rfl
      have := ih b1 hb1s (by rw [hb1f, hb1c]; omega) hts
      exact ⟨this.1, by rw [this.2.1, hb1c], by rw [this.2.2, hb1c]⟩

/-- An OPEN breaker whose cool-down has not elapsed (relative to its recorded
last-failure instant, if any) rejects the admission check and is unchanged. -/
theorem shouldAllow_open_rejects (b : CircuitBreakerState) (now : ℚ)
    (hs : b.state = .OPEN)
    (hcd : ∀ t, b.last_failure_time = some t → now - t < b.config.timeout_seconds) :
    shouldAllowRequest b now = (false, b) := by
  unfold shouldAllowRequest
  rcases hlf : b.last_failure_time with _ | t
  · simp [hs, hlf]
  · simp only [hs, hlf]
    rw [if_neg]
    rintro ⟨_, hge⟩
    exact absurd hge (not_le.mpr (hcd t hlf))

/-- A rejected admission check makes `with_circuit_breaker` raise
`CircuitBreakerOpen` without invoking the wrapped function. -/
theorem withCB_of_rejected {ε α : Type} (b : CircuitBreakerState) (now : ℚ)
    (func : Except ε α) (h : shouldAllowRequest b now = (false, b)) :
    withCircuitBreaker b now func = (.breakerOpen, b, false) := by
  unfold withCircuitBreaker
  rw [h]
  simp

/-- A rejected admission check leaves the breaker record untouched. -/
theorem shouldAllow_false_frame (b : CircuitBreakerState) (now : ℚ)
    (h : (shouldAllowRequest b now).1 = false) :
    shouldAllowRequest b now = (false, b) := by
  unfold shouldAllowRequest at h ⊢
  rcases hst : b.state
  · simp [hst] at h
  · simp only [hst] at h ⊢
    rcases hlf : b.last_failure_time with _ | t
    · simp [hlf]
    · simp only [hlf] at h ⊢
      split at h
      · simp at h
      · rename_i hc
        rw [if_neg hc]
  · simp [hst] at h

/-! ## Claim theorems: circuit breaker -/

/-- C1: a breaker in CLOSED with failure count 0 reaches OPEN after exactly
`failure_threshold` consecutive `record_failure` calls (and is still CLOSED
after any shorter run), and afterwards every admission check made before the
cool-down has elapsed since the recorded last-failure instant returns
`false`, so `with_circuit_breaker` raises `CircuitBreakerOpen` without
invoking the wrapped function.  The threshold must be positive (the spec's
default is 5). -/
theorem closed_breaker_opens_after_threshold_failures {ε α : Type}
    (b : CircuitBreakerState) (ts : List ℚ) (func : Except ε α)
    (hs : b.state = .CLOSED) (hf : b.failure_count = 0)
    (hpos : 0 < b.config.failure_threshold)
    (hlen : ts.length = b.config.failure_threshold) :
    (recordFailures b ts).state = .OPEN ∧
    (recordFailures b ts).failure_count = b.config.failure_threshold ∧
    (∀ ts' : List ℚ, ts'.length < b.config.failure_threshold →
      (recordFailures b ts').state = .CLOSED) ∧
    ∀ now : ℚ,
      (∀ t, (recordFailures b ts).last_failure_time = some t →
        now - t < b.config.timeout_seconds) →
      shouldAllowRequest (recordFailures b ts) now = (false, recordFailures b ts) ∧
      withCircuitBreaker (recordFailures b ts) now func =
        (.breakerOpen, recordFailures b ts, false) := by
  have hne : ts ≠ [] := by
    intro hnil
    rw [hnil] at hlen
    simp at hlen
    omega
  have hmain := recordFailures_opens ts b hs (by omega) hne
  refine ⟨hmain.1, hmain.2.1, ?_, ?_⟩
  · intro ts' hlt
    exact (recordFailures_closed_of_lt ts' b hs (by omega)).1
  · intro now hcd
    have hrej := shouldAllow_open_rejects (recordFailures b ts) now hmain.1
      (by intro t h; rw [hmain.2.2]; exact hcd t h)
    exact ⟨hrej, withCB_of_rejected _ now func hrej⟩

/-- Witness for C1 at threshold 2: two failures at instants 100 and 200 open
the breaker, and an admission check at 210 (within the 30 s cool-down) is
rejected without invoking the wrapped function. -/
theorem closed_breaker_opens_witness :
    0 < (initBreaker ⟨2, 2, 30⟩).config.failure_threshold ∧
    (recordFailures (initBreaker ⟨2, 2, 30⟩) [100, 200]).state = CircuitState.OPEN ∧
    shouldAllowRequest (recordFailures (initBreaker ⟨2, 2, 30⟩) [100, 200]) 210 =
      (false, recordFailures (initBreaker ⟨2, 2, 30⟩) [100, 200]) ∧
    withCircuitBreaker (recordFailures (initBreaker ⟨2, 2, 30⟩) [100, 200]) 210
      (Except.ok 0 : Except String Nat) =
      (.breakerOpen, recordFailures (initBreaker ⟨2, 2, 30⟩) [100, 200], false) := by
  have h := closed_breaker_opens_after_threshold_failures
    (initBreaker ⟨2, 2, 30⟩) [100, 200] (Except.ok 0 : Except String Nat)
    rfl rfl (by decide) rfl
  have hlast : (recordFailures (initBreaker ⟨2, 2, 30⟩) [100, 200]).last_failure_time =
      some (200 : ℚ) := by decide
  have hcd : ∀ t : ℚ,
      (recordFailures (initBreaker ⟨2, 2, 30⟩) [100, 200]).last_failure_time = some t →
      (210 : ℚ) - t < (initBreaker ⟨2, 2, 30⟩).config.timeout_seconds := by
    intro t ht
    rw [hlast] at ht
    cases ht
    norm_num [initBreaker]
  exact ⟨by decide, h.1, (h.2.2.2 210 hcd).1, (h.2.2.2 210 hcd).2⟩

/-- C4: one failure while HALF_OPEN sends the breaker back to OPEN with the
failure counter forced to the threshold, whatever the prior success count,
and stamps the failure instant. -/
theorem halfopen_failure_reopens (b : CircuitBreakerState) (now : ℚ)
    (hs : b.state = .HALF_OPEN) :
    (recordFailure b now).state = .OPEN ∧
    (recordFailure b now).failure_count = b.config.failure_threshold ∧
    (recordFailure b now).last_failure_time = some now := by
  unfold recordFailure
  simp [hs]

/-- Witness for C4: a HALF_OPEN breaker with success count 1 (one below the
success threshold 2) reopens on a single failure. -/
theorem halfopen_failure_reopens_witness :
    (⟨⟨5, 2, 30⟩, .HALF_OPEN, 0, 1, some 50⟩ : CircuitBreakerState).state =
      CircuitState.HALF_OPEN ∧
    (recordFailure ⟨⟨5, 2, 30⟩, .HALF_OPEN, 0, 1, some 50⟩ 60).state = .OPEN ∧
    (recordFailure ⟨⟨5, 2, 30⟩, .HALF_OPEN, 0, 1, some 50⟩ 60).failure_count = 5 ∧
    (recordFailure ⟨⟨5, 2, 30⟩, .HALF_OPEN, 0, 1, some 50⟩ 60).last_failure_time =
      some 60 :=
  ⟨rfl, halfopen_failure_reopens ⟨⟨5, 2, 30⟩, .HALF_OPEN, 0, 1, some 50⟩ 60 rfl⟩

/-- C5: an OPEN breaker whose recorded (positive) last-failure instant is at
least the cool-down in the past transitions to HALF_OPEN with the success
counter reset and admits the call; before the cool-down elapses it admits
nothing and is unchanged. -/
theorem open_breaker_cooldown_halfopen (b : CircuitBreakerState) (t now : ℚ)
    (hs : b.state = .OPEN) (ht : b.last_failure_time = some t) (h0 : t ≠ 0) :
    (b.config.timeout_seconds ≤ now - t →
      shouldAllowRequest b now =
        (true, { b with state := .HALF_OPEN, success_count := 0 })) ∧
    (now - t < b.config.timeout_seconds →
      shouldAllowRequest b now = (false, b)) := by
  constructor
  · intro h
    unfold shouldAllowRequest
    simp only [hs, ht]
    rw [if_pos ⟨h0, h⟩]
  · intro h
    refine shouldAllow_open_rejects b now hs ?_
    intro t' ht'
    rw [ht] at ht'
    cases ht'
    exact h

/-- Witness for C5: with last failure at 100 and cool-down 30, the check at
130 admits and flips to HALF_OPEN, the check at 110 rejects and changes
nothing. -/
theorem open_breaker_cooldown_witness :
    shouldAllowRequest (⟨⟨5, 2, 30⟩, .OPEN, 5, 0, some 100⟩ : CircuitBreakerState) 130 =
      (true, (⟨⟨5, 2, 30⟩, .HALF_OPEN, 5, 0, some 100⟩ : CircuitBreakerState)) ∧
    shouldAllowRequest (⟨⟨5, 2, 30⟩, .OPEN, 5, 0, some 100⟩ : CircuitBreakerState) 110 =
      (false, (⟨⟨5, 2, 30⟩, .OPEN, 5, 0, some 100⟩ : CircuitBreakerState)) :=
  ⟨(open_breaker_cooldown_halfopen ⟨⟨5, 2, 30⟩, .OPEN, 5, 0, some 100⟩ 100 130
      rfl rfl (by norm_num)).1 (by norm_num),
   (open_breaker_cooldown_halfopen ⟨⟨5, 2, 30⟩, .OPEN, 5, 0, some 100⟩ 100 110
      rfl rfl (by norm_num)).2 (by norm_num)⟩

/-- C10: a rejected admission check leaves the breaker record entirely
unchanged (state, counters, timestamp), and `with_circuit_breaker` raises
`CircuitBreakerOpen` without invoking the wrapped function. -/
theorem rejected_admission_frame {ε α : Type} (b : CircuitBreakerState)
    (now : ℚ) (func : Except ε α) (h : (shouldAllowRequest b now).1 = false) :
    (shouldAllowRequest b now).2 = b ∧
    withCircuitBreaker b now func = (.breakerOpen, b, false) := by
  have hr := shouldAllow_false_frame b now h
  exact ⟨by rw [hr], withCB_of_rejected b now func hr⟩

/-- Witness for C10: an OPEN breaker checked 10 s after its last failure
(within the 30 s cool-down) rejects and is unchanged. -/
theorem rejected_admission_frame_witness :
    (shouldAllowRequest (⟨⟨5, 2, 30⟩, .OPEN, 5, 0, some 100⟩ : CircuitBreakerState)
      110).1 = false ∧
    (shouldAllowRequest (⟨⟨5, 2, 30⟩, .OPEN, 5, 0, some 100⟩ : CircuitBreakerState)
      110).2 = ⟨⟨5, 2, 30⟩, .OPEN, 5, 0, some 100⟩ ∧
    withCircuitBreaker (⟨⟨5, 2, 30⟩, .OPEN, 5, 0, some 100⟩ : CircuitBreakerState)
      110 (Except.ok 0 : Except String Nat) =
      (.breakerOpen, ⟨⟨5, 2, 30⟩, .OPEN, 5, 0, some 100⟩, false) := by
  have hrej : shouldAllowRequest
      (⟨⟨5, 2, 30⟩, .OPEN, 5, 0, some 100⟩ : CircuitBreakerState) 110 =
      (false, ⟨⟨5, 2, 30⟩, .OPEN, 5, 0, some 100⟩) := by
    refine shouldAllow_open_rejects _ 110 rfl ?_
    intro t ht
    have ht' : some (100 : ℚ) = some t := ht
    cases ht'
    norm_num
  refine ⟨by rw [hrej], rejected_admission_frame _ 110 (Except.ok 0 : Except String Nat)
    (by rw [hrej])⟩

/-! ## Claim theorems: retry and rate limiter -/

/-- C6: a wrapped function whose first invocation raises a non-transient
exception is invoked exactly once, the exception propagates, and no sleep or
retry budget is consumed, for every configured budget. -/
theorem nontransient_error_not_retried {α : Type} (f : Nat → CallOutcome α)
    (retries base_ms max_ms : Nat) (m : String) (h : f 0 = .nonTransient m) :
    retryWithBackoff f retries base_ms max_ms =
      (.error (.nonTransient m), 1, 0) := by
  unfold retryWithBackoff
  cases retries <;> simp [retryGo, h]

/-- Witness for C6: a function raising a non-transient error on every
invocation, run with a budget of 3 retries. -/
theorem nontransient_error_not_retried_witness :
    (fun _ : Nat => (CallOutcome.nonTransient "validation error" : CallOutcome Nat)) 0 =
      .nonTransient "validation error" ∧
    retryWithBackoff
      (fun _ : Nat => (CallOutcome.nonTransient "validation error" : CallOutcome Nat))
      3 250 2000 = (.error (.nonTransient "validation error"), 1, 0) :=
  ⟨rfl,
   nontransient_error_not_retried
     (fun _ => CallOutcome.nonTransient "validation error") 3 250 2000
     "validation error" rfl⟩

/-- C7: a fresh bucket with capacity 10 and refill rate 10/60 tokens per
second grants 10 immediate single-token consumes, rejects the 11th, grants
exactly one more after 6 elapsed seconds and rejects the next; the token
count stays within [0, 10] throughout. -/
theorem token_bucket_scenario :
    consumeTrace (newBucket 10 0) (List.replicate 11 0 ++ [6, 6]) =
      [(true, 9), (true, 8), (true, 7), (true, 6), (true, 5), (true, 4), (true, 3),
       (true, 2), (true, 1), (true, 0), (false, 0), (true, 0), (false, 0)] ∧
    ∀ p ∈ consumeTrace (newBucket 10 0) (List.replicate 11 0 ++ [6, 6]),
      0 ≤ p.2 ∧ p.2 ≤ 10 := by
  have h : consumeTrace (newBucket 10 0) (List.replicate 11 0 ++ [6, 6]) =
      [(true, 9), (true, 8), (true, 7), (true, 6), (true, 5), (true, 4), (true, 3),
       (true, 2), (true, 1), (true, 0), (false, 0), (true, 0), (false, 0)] := by
    norm_num [consumeTrace, TokenBucket.consume, newBucket, min_def,
      List.replicate]
  exact ⟨h, by rw [h]; decide⟩

/-! ## Claim theorems: field masking -/

/-- A masked field never survives lookup in a filtered association list. -/
theorem alistLookup_filter_removed :
    ∀ (kvs : List (String × JValue)) (remove_fields : List String) (k : String),
      k ∈ remove_fields →
      alistLookup (kvs.filter (fun kv => !(remove_fields.contains kv.1))) k = none := by
  intro kvs remove_fields k hk
  induction kvs with
  | nil => rfl
  | cons kv rest ih =>
    by_cases hc : remove_fields.contains kv.1
    · have hcm : kv.1 ∈ remove_fields := List.mem_of_elem_eq_true hc
      rw [List.filter_cons_of_neg (by simp [hcm])]
      exact ih
    · have hcm : kv.1 ∉ remove_fields := fun hm => hc (List.elem_eq_true_of_mem hm)
      rw [List.filter_cons_of_pos (by simp [hcm])]
      have hne : kv.1 ≠ k := by
        intro hcontra
        rw [hcontra] at hcm
        exact hcm hk
      unfold alistLookup
      rw [if_neg hne]
      exact ih

/-- A field not named in the mask survives filtering with its value. -/
theorem alistLookup_filter_kept :
    ∀ (kvs : List (String × JValue)) (remove_fields : List String) (k : String),
      k ∉ remove_fields →
      alistLookup (kvs.filter (fun kv => !(remove_fields.contains kv.1))) k =
        alistLookup kvs k := by
  intro kvs remove_fields k hk
  induction kvs with
  | nil => rfl
  | cons kv rest ih =>
    by_cases hc : remove_fields.contains kv.1
    · have hcm : kv.1 ∈ remove_fields := List.mem_of_elem_eq_true hc
      rw [List.filter_cons_of_neg (by simp [hcm])]
      have hne : kv.1 ≠ k := by
        intro hcontra
        rw [hcontra] at hcm
        exact hk hcm
      rw [ih]
      conv_rhs => unfold alistLookup
      rw [if_neg hne]
    · have hcm : kv.1 ∉ remove_fields := fun hm => hc (List.elem_eq_true_of_mem hm)
      rw [List.filter_cons_of_pos (by simp [hcm])]
      unfold alistLookup
      by_cases he : kv.1 = k
      · rw [if_pos he, if_pos he]
      · rw [if_neg he, if_neg he]
        exact ih

/-- The element-wise masking loop is `List.map`. -/
theorem applyFieldMasksList_eq_map :
    ∀ (items : List JValue) (field_masks : MaskDict),
      applyFieldMasksList items field_masks =
        items.map (fun x => applyFieldMasks x field_masks) := by
  intro items field_masks
  induction items with
  | nil => rfl
  | cons x xs ih => simp [applyFieldMasksList, ih]

/-- C2 counterexample: with mask `{"remove": ["phone"]}`, a `"phone"` field
nested inside an object value is NOT removed — `_apply_field_masks` only
filters the top level of a dict and recurses into lists, never into dict
values.  The input `{"a": {"phone": "b"}}` is returned unchanged, its nested
object still carrying `"phone"`. -/
theorem field_mask_nested_object_cex :
    applyFieldMasks (.obj [("a", .obj [("phone", .str "b")])])
        [("remove", ["phone"])] =
      .obj [("a", .obj [("phone", .str "b")])] ∧
    objLookup (applyFieldMasks (.obj [("a", .obj [("phone", .str "b")])])
        [("remove", ["phone"])]) "a" = some (.obj [("phone", .str "b")]) :=
  ⟨rfl, rfl⟩

/-- C2 (amended): masking removes the named fields from the top level of a
dict (preserving all other fields), maps itself over every list element, and
leaves scalars unchanged; it does not descend into the values of dict
fields.  The spec's concrete examples hold. -/
theorem field_mask_top_level_and_lists (field_masks : MaskDict) (k : String)
    (kvs : List (String × JValue)) (xs : List JValue) (s : String)
    (hk : k ∈ dictGet field_masks "remove") :
    objLookup (applyFieldMasks (.obj kvs) field_masks) k = none ∧
    (∀ k', k' ∉ dictGet field_masks "remove" →
      objLookup (applyFieldMasks (.obj kvs) field_masks) k' =
        objLookup (.obj kvs) k') ∧
    applyFieldMasks (.arr xs) field_masks =
      .arr (xs.map (fun x => applyFieldMasks x field_masks)) ∧
    applyFieldMasks (.str s) field_masks = .str s ∧
    applyFieldMasks (.obj [("name", .str "a"), ("phone", .str "b")])
        [("remove", ["phone"])] = .obj [("name", .str "a")] ∧
    applyFieldMasks
        (.arr [.obj [("name", .str "a"), ("phone", .str "b")],
               .obj [("name", .str "c"), ("phone", .str "d")]])
        [("remove", ["phone"])] =
      .arr [.obj [("name", .str "a")], .obj [("name", .str "c")]] := by
  have hne : dictGet field_masks "remove" ≠ [] := by
    intro hnil
    rw [hnil] at hk
    exact absurd hk (List.not_mem_nil k)
  have hobj : applyFieldMasks (.obj kvs) field_masks =
      .obj (kvs.filter (fun kv => !((dictGet field_masks "remove").contains kv.1))) := by
    unfold applyFieldMasks
    rw [if_neg hne]
  have harr : applyFieldMasks (.arr xs) field_masks =
      .arr (applyFieldMasksList xs field_masks) := by
    unfold applyFieldMasks
    rw [if_neg hne]
  refine ⟨?_, ?_, ?_, ?_, rfl, rfl⟩
  · rw [hobj]
    exact alistLookup_filter_removed kvs _ k hk
  · intro k' hk'
    rw [hobj]
    exact alistLookup_filter_kept kvs _ k' hk'
  · rw [harr, applyFieldMasksList_eq_map]
  · unfold applyFieldMasks
    rw [if_neg hne]

/-- Witness for the amended C2 at the spec's example mask. -/
theorem field_mask_top_level_witness :
    "phone" ∈ dictGet [("remove", ["phone"])] "remove" ∧
    objLookup (applyFieldMasks (.obj [("name", .str "a"), ("phone", .str "b")])
        [("remove", ["phone"])]) "phone" = none ∧
    applyFieldMasks (.str "scalar") [("remove", ["phone"])] = .str "scalar" :=
  ⟨by decide,
   (field_mask_top_level_and_lists [("remove", ["phone"])] "phone"
      [("name", .str "a"), ("phone", .str "b")] [] "scalar" (by decide)).1,
   (field_mask_top_level_and_lists [("remove", ["phone"])] "phone"
      [("name", .str "a"), ("phone", .str "b")] [] "scalar" (by decide)).2.2.2.1⟩

/-! ## Claim theorems: policy evaluation -/

/-- C8: once steps 1–4 have passed (tool found and enabled, policies allow,
rate limiter admits), an exception raised by tool execution is caught and
turned into a normal response envelope with `ok = false`, the exception's
message as `error`, no data, no masking, and the trace ID generated at the
start — it is not propagated as a pipeline-level error. -/
theorem tool_execution_error_wrapped (trace_id : String) (tool : ToolModel)
    (policies : List Policy) (membership : Option String)
    (bucket? : Option TokenBucket) (now : ℚ) (e : String)
    (hen : tool.enabled = true)
    (hpol : (checkPolicies policies membership).allowed = true)
    (hadm : ((resolveBucket bucket? (toolRateLimit tool) now).consume now 1).1 = true) :
    (invokeTool trace_id (some tool) policies membership bucket? now
        (.error e)).1 =
      .ok ⟨false, none, false, trace_id, some e⟩ := by
  unfold invokeTool
  simp [hen, hpol, hadm]

/-- Witness for C8: an enabled unpoliced tool with the default 60/min limit,
a fresh bucket, and an execution failure "boom". -/
theorem tool_execution_error_wrapped_witness :
    (⟨true, none⟩ : ToolModel).enabled = true ∧
    (checkPolicies [] none).allowed = true ∧
    ((resolveBucket none (toolRateLimit ⟨true, none⟩) 0).consume 0 1).1 = true ∧
    (invokeTool "trace-1" (some ⟨true, none⟩) [] none none 0
        (.error "boom")).1 =
      .ok ⟨false, none, false, "trace-1", some "boom"⟩ := by
  have hadm : ((resolveBucket none (toolRateLimit ⟨true, none⟩) 0).consume 0 1).1 =
      true := by
    norm_num [resolveBucket, toolRateLimit, newBucket, TokenBucket.consume, min_def]
  exact ⟨rfl, rfl, hadm,
    tool_execution_error_wrapped "trace-1" ⟨true, none⟩ [] none none 0 "boom"
      rfl rfl hadm⟩

/-- C9 counterexample: a `defaultdict` read (`MetricsRegistry.get_metrics`,
reached through the metrics endpoint via
`DataSourceService.get_datasource_metrics`) creates an empty record for a
never-called datasource (`calls_total = 0`, both timestamps `None`, state
`"CLOSED"`); `get_org_health_summary` then reports that datasource unhealthy
(`ok = false`) — not unknown (`ok = null`) as the claim requires for a
never-called source — even though its mirrored breaker state is not OPEN and
no failure has ever been recorded, a condition the claim classifies as
healthy. -/
theorem health_summary_empty_record_cex :
    getMetrics none = (initMetrics, some initMetrics) ∧
    initMetrics.calls_total = 0 ∧
    healthOk (some initMetrics) = some false ∧
    healthyClaim initMetrics :=
  ⟨rfl, rfl, by decide, ⟨by decide, Or.inl rfl⟩⟩

/-- C9 (amended): after any `record_call` at least one of the two timestamps
is set; for every metrics record with that property the health formula of
`get_org_health_summary` reports healthy exactly under the spec's condition
(breaker state not OPEN, and last success strictly newer than last failure
or no failure ever recorded), and unhealthy otherwise; a datasource with no
metrics record is reported unknown (`ok = null`).  However, a metrics record
also exists for a never-called datasource once any `defaultdict` read (such
as the metrics endpoint) touches its key, and that empty record is reported
unhealthy (`ok = false`), not unknown, although its breaker state is not
OPEN and no failure has ever been recorded. -/
theorem health_summary_classification :
    (∀ (m : DataSourceMetrics) (now latency_ms : ℚ) (success : Bool),
      ¬((recordCall m now latency_ms success).last_ok_ts = none ∧
        (recordCall m now latency_ms success).last_err_ts = none)) ∧
    (∀ m : DataSourceMetrics,
      ¬(m.last_ok_ts = none ∧ m.last_err_ts = none) →
      (metricsHealthy m = true ↔ healthyClaim m)) ∧
    healthOk none = none ∧
    (∀ m : DataSourceMetrics, healthOk (some m) = some (metricsHealthy m)) ∧
    (getMetrics none).2 = some initMetrics ∧
    healthOk (some initMetrics) = some false := by
  refine ⟨?_, ?_, rfl, fun m => rfl, rfl, by decide⟩
  · intro m now latency_ms success
    cases success <;>
      simp [recordCall, apply_ite DataSourceMetrics.last_ok_ts,
        apply_ite DataSourceMetrics.last_err_ts]
  · intro m hm
    rcases hok : m.last_ok_ts with _ | ok_ts <;>
      rcases herr : m.last_err_ts with _ | err_ts
    · exact absurd ⟨hok, herr⟩ hm
    · simp [metricsHealthy, healthyClaim, hok, herr]
    · simp [metricsHealthy, healthyClaim, hok, herr]
    · simp [metricsHealthy, healthyClaim, hok, herr]

/-- Witness for C9: a record with one successful call at t = 10 and no
failure, in mirrored state CLOSED, is classified healthy by both the code
formula and the spec condition. -/
theorem health_summary_classification_witness :
    ¬((⟨1, 0, 5, 5, [5], some 10, none, "CLOSED"⟩ : DataSourceMetrics).last_ok_ts =
        none ∧
      (⟨1, 0, 5, 5, [5], some 10, none, "CLOSED"⟩ : DataSourceMetrics).last_err_ts =
        none) ∧
    (metricsHealthy ⟨1, 0, 5, 5, [5], some 10, none, "CLOSED"⟩ = true ↔
      healthyClaim ⟨1, 0, 5, 5, [5], some 10, none, "CLOSED"⟩) ∧
    healthOk none = none :=
  ⟨by simp,
   health_summary_classification.2.1 ⟨1, 0, 5, 5, [5], some 10, none, "CLOSED"⟩
     (by simp),
   health_summary_classification.2.2.1⟩

end DataLab
